import Mathlib

/-! Verification of the natal-chart computation engine (`index.js`).

The development shallowly embeds the chart engine of the repository:
JavaScript numbers are modelled as rationals (`ℚ`), JS objects that may be
`null`/`undefined` as `Option`, and the external Swiss Ephemeris provider as
an oracle function `eph : ℚ → String → ℚ` mapping a Julian day and a body
name to an ecliptic longitude.  The source file contains the same engine in
two request shapes (a "structured" variant and a "flat" variant); both
transit passes are embedded below.
-/

namespace NatalChart

/-- The fixed ordered sign list (`SIGNS` in `index.js`). -/
def SIGNS : List String :=
  ["Aries", "Taurus", "Gemini", "Cancer", "Leo", "Virgo",
   "Libra", "Scorpio", "Sagittarius", "Capricorn", "Aquarius", "Pisces"]

/-- Planet names of the `PLANETS` table (the Swiss Ephemeris body codes live
in the external collaborator and are irrelevant to the engine logic). -/
def PLANETS : List String :=
  ["Sun", "Moon", "Mercury", "Venus", "Mars", "Jupiter", "Saturn",
   "Uranus", "Neptune", "Pluto", "Chiron", "North Node"]

/-- The static sign→element table (`ELEMENTS` in `index.js`). -/
def ELEMENTS : List (String × String) :=
  [("Aries", "Fire"), ("Leo", "Fire"), ("Sagittarius", "Fire"),
   ("Taurus", "Earth"), ("Virgo", "Earth"), ("Capricorn", "Earth"),
   ("Gemini", "Air"), ("Libra", "Air"), ("Aquarius", "Air"),
   ("Cancer", "Water"), ("Scorpio", "Water"), ("Pisces", "Water")]

/-- The static sign→mode table (`MODES` in `index.js`). -/
def MODES : List (String × String) :=
  [("Aries", "Cardinal"), ("Cancer", "Cardinal"), ("Libra", "Cardinal"), ("Capricorn", "Cardinal"),
   ("Taurus", "Fixed"), ("Leo", "Fixed"), ("Scorpio", "Fixed"), ("Aquarius", "Fixed"),
   ("Gemini", "Mutable"), ("Virgo", "Mutable"), ("Sagittarius", "Mutable"), ("Pisces", "Mutable")]

/-- JS truncation toward zero, as used by the `%` operator on numbers. -/
def jsTrunc (q : ℚ) : ℤ := if 0 ≤ q then ⌊q⌋ else ⌈q⌉

/-- The JS remainder operator `a % b` (sign of the dividend). -/
def jsMod (a b : ℚ) : ℚ := a - b * jsTrunc (a / b)

/-- `+(x).toFixed(2)`: rounding to two decimals.  ECMAScript `toFixed` picks
the integer `n` minimising `|n/100 − x|`, taking the larger `n` on ties. -/
def jsToFixed2 (x : ℚ) : ℚ := (⌊x * 100 + 1 / 2⌋ : ℚ) / 100

/-- `Math.floor(degree / 30)`, the index into `SIGNS` (`getSign`). -/
def signIndex (degree : ℚ) : ℤ := ⌊degree / 30⌋

/-- `getSign` in `index.js`: `SIGNS[Math.floor(degree/30)]`; an out-of-range
index reads `undefined` from the array, modelled as `none`. -/
def getSign (degree : ℚ) : Option String :=
  if 0 ≤ signIndex degree then SIGNS.get? (signIndex degree).toNat else none

/-- `getDegreeInSign` in `index.js`: `+(degree % 30).toFixed(2)`. -/
def getDegreeInSign (degree : ℚ) : ℚ := jsToFixed2 (jsMod degree 30)

/-- Modelled from the spec: §3 requires every longitude to be "normalized
into [0,360) before any lookup"; the normalisation itself is performed by
the external ephemeris provider (its contract in §6 returns longitude ∈
[0,360)), not by code under `src/`. -/
def normalize360 (L : ℚ) : ℚ := L - 360 * ⌊L / 360⌋

/-- Wrap-aware containment of a longitude in the house interval
`[start, end)`: the AND-range when `start < end`, the OR-range otherwise
(the two branches of the cusp scan in `getAllPositions`). -/
def arcCond (s e L : ℚ) : Prop :=
  if s < e then s ≤ L ∧ L < e else (s ≤ L ∨ L < e)

instance arcCondDecidable (s e L : ℚ) : Decidable (arcCond s e L) :=
  if h : s < e then decidable_of_iff (s ≤ L ∧ L < e) (by simp [arcCond, h])
  else decidable_of_iff (s ≤ L ∨ L < e) (by simp [arcCond, h])

/-- One step of the house scan: the test the loop body of `getAllPositions`
performs for house `h` (`start = cusps[h-1]`, `end = cusps[h % 12]`).  A
missing array entry is JS `undefined`: every `<`/`>=` comparison with it is
false, which the `Option`-free branches reproduce. -/
def houseCond (cusps : List ℚ) (L : ℚ) (h : ℕ) : Bool :=
  match cusps.get? (h - 1), cusps.get? (h % 12) with
  | some s, some e => if arcCond s e L then true else false
  | some s, none => if s ≤ L then true else false
  | none, some e => if L < e then true else false
  | none, none => false

/-- The `for (let h = 1; h <= 12; h++) { ... break }` scan: the first house
whose interval contains the longitude, `none` when no interval matches. -/
def assignHouse (cusps : List ℚ) (L : ℚ) : Option ℕ :=
  (List.range' 1 12).find? (houseCond cusps L)

/-- A resolved body position (the per-planet record built by
`getAllPositions`). -/
structure Position where
  sign : Option String
  degree : ℚ
  house : Option ℕ
  absDegree : ℚ
deriving DecidableEq, Repr

/-- The two places `getAllPositions` looks for cusps in its `housesData`
argument: `housesData.cusps`, else `housesData.detail.house`. -/
structure HousesData where
  cusps : Option (List ℚ)
  detailHouse : Option (List ℚ)
deriving DecidableEq, Repr

/-- Cusp extraction at the top of `getAllPositions`. -/
def extractCusps : Option HousesData → Option (List ℚ)
  | none => none
  | some hd =>
    match hd.cusps with
    | some cs => some cs
    | none => hd.detailHouse

/-- `getAllPositions(jd, housesData)`: per planet, longitude from the
ephemeris, sign, rounded degree-in-sign, and house via the cusp scan
(`null` when no cusps were supplied). -/
def getAllPositions (eph : ℚ → String → ℚ) (jd : ℚ) (housesData : Option HousesData) :
    List (String × Position) :=
  let cusps := extractCusps housesData
  PLANETS.map fun nm =>
    let d := eph jd nm
    (nm, { sign := getSign d
           degree := getDegreeInSign d
           house := match cusps with
                    | some cs => assignHouse cs d
                    | none => none
           absDegree := d })

/-- `getTransits(jdNatal, jdTransit)` of the flat variant: it calls
`getAllPositions(jdTransit)` with no house data at all. -/
def getTransits (eph : ℚ → String → ℚ) (_jdNatal jdTransit : ℚ) :
    List (String × Position) :=
  getAllPositions eph jdTransit none

/-- The `planet.name.replace('North Node', 'NorthNode')` key renaming of the
structured endpoint. -/
def renameNode (nm : String) : String :=
  if nm = "North Node" then "NorthNode" else nm

/-- A transit-planet record of the structured endpoint (`sign`, `degree`,
`house`). -/
structure TransitPos where
  sign : Option String
  degree : ℚ
  house : Option ℕ
deriving DecidableEq, Repr

/-- The transit-planet loop of the structured endpoint (lines 296–318): the
house scan runs against `houses.cusps`, i.e. the cusps computed for the
NATAL moment; `natalCusps = none` models `houses` or `houses.cusps` being
absent. -/
def structuredTransitPlanets (eph : ℚ → String → ℚ) (jdTransit : ℚ)
    (natalCusps : Option (List ℚ)) : List (String × TransitPos) :=
  PLANETS.map fun nm =>
    let d := eph jdTransit nm
    (renameNode nm,
     { sign := getSign d
       degree := jsToFixed2 (jsMod d 30)
       house := match natalCusps with
                | some cs => assignHouse cs d
                | none => none })

/-- One entry of the fixed aspect catalog. -/
structure AspectType where
  type : String
  angle : ℚ
  orb : ℚ
deriving DecidableEq, Repr

/-- The `aspectTypes` catalog (identical literals in `getAspects` and in the
structured endpoint's `aspects_to_natal` loop). -/
def aspectTypes : List AspectType :=
  [{ type := "Conjunction", angle := 0, orb := 8 },
   { type := "Opposition", angle := 180, orb := 8 },
   { type := "Trine", angle := 120, orb := 8 },
   { type := "Square", angle := 90, orb := 8 },
   { type := "Sextile", angle := 60, orb := 6 }]

/-- Angular separation as computed in `getAspects`:
`let diff = Math.abs(a - b); if (diff > 180) diff = 360 - diff`. -/
def sep (a b : ℚ) : ℚ :=
  let diff := |a - b|
  if diff > 180 then 360 - diff else diff

/-- An emitted aspect match. -/
structure Aspect where
  type : String
  between : String × String
  orb : ℚ
deriving DecidableEq, Repr

/-- Catalog matches for one separation value: the inner
`for (const asp of aspectTypes)` loop of `getAspects`. -/
def matchList (diff : ℚ) (k1 k2 : String) : List Aspect :=
  aspectTypes.filterMap fun asp =>
    if |diff - asp.angle| ≤ asp.orb then
      some { type := asp.type, between := (k1, k2), orb := jsToFixed2 |diff - asp.angle| }
    else none

/-- Aspects contributed by one body pair; `a == null || b == null` makes the
loop `continue`, i.e. contribute nothing. -/
def pairAspects (x y : String × Option ℚ) : List Aspect :=
  match x.2, y.2 with
  | some a, some b => matchList (sep a b) x.1 y.1
  | _, _ => []

/-- All ordered pairs `(keys[i], keys[j])` with `i < j`, in the nested-loop
order of `getAspects`. -/
def pairsOf {α : Type} : List α → List (α × α)
  | [] => []
  | x :: xs => (xs.map fun y => (x, y)) ++ pairsOf xs

/-- `getAspects(positions)`: every unordered pair of bodies against the
five-entry catalog. -/
def getAspects (ps : List (String × Option ℚ)) : List Aspect :=
  (pairsOf ps).flatMap fun pr => pairAspects pr.1 pr.2

/-- The truthiness-and-table condition
`positions[planet].sign && ELEMENTS[positions[planet].sign]` together with
the looked-up element (the empty string is the only falsy sign value). -/
def signElem : Option String → Option String
  | none => none
  | some s => if s = "" then none else ELEMENTS.lookup s

/-- Same for the `MODES` table. -/
def signMode : Option String → Option String
  | none => none
  | some s => if s = "" then none else MODES.lookup s

/-- `dist[key]++` on a JS object literal whose keys are fixed: increment the
entry carrying the key. -/
def incr (key : String) (dist : List (String × ℕ)) : List (String × ℕ) :=
  dist.map fun p => if p.1 = key then (p.1, p.2 + 1) else p

/-- The initial `{ Fire: 0, Water: 0, Earth: 0, Air: 0 }` literal. -/
def initElemDist : List (String × ℕ) :=
  [("Fire", 0), ("Water", 0), ("Earth", 0), ("Air", 0)]

/-- The initial `{ Cardinal: 0, Fixed: 0, Mutable: 0 }` literal. -/
def initModalDist : List (String × ℕ) :=
  [("Cardinal", 0), ("Fixed", 0), ("Mutable", 0)]

/-- One loop iteration of `getElementalDistribution`. -/
def elemStep (dist : List (String × ℕ)) (p : String × Option String) :
    List (String × ℕ) :=
  match signElem p.2 with
  | some el => incr el dist
  | none => dist

/-- One loop iteration of `getModalDistribution`. -/
def modalStep (dist : List (String × ℕ)) (p : String × Option String) :
    List (String × ℕ) :=
  match signMode p.2 with
  | some md => incr md dist
  | none => dist

/-- `getElementalDistribution(positions)` over body→sign entries. -/
def getElementalDistribution (ps : List (String × Option String)) :
    List (String × ℕ) :=
  ps.foldl elemStep initElemDist

/-- `getModalDistribution(positions)`. -/
def getModalDistribution (ps : List (String × Option String)) :
    List (String × ℕ) :=
  ps.foldl modalStep initModalDist

/-- Total of a count map. -/
def sumValues (dist : List (String × ℕ)) : ℕ :=
  (dist.map Prod.snd).sum

/-- `String.prototype.split` with a one-character separator, on the
character list of the string. -/
def splitOnChar (c : Char) : List Char → List (List Char)
  | [] => [[]]
  | x :: xs =>
    if x = c then [] :: splitOnChar c xs
    else
      match splitOnChar c xs with
      | [] => [[x]]
      | y :: ys => (x :: y) :: ys

/-- Decimal value of a digit list (most significant first). -/
def digitsToNat (l : List Char) : ℕ :=
  l.foldl (fun n ch => 10 * n + (ch.toNat - 48)) 0

/-- The optional fractional tail `(\.\d+)?` of the decimal-number regex. -/
def fracOk : List Char → Bool
  | [] => true
  | '.' :: rest => !rest.isEmpty && rest.all Char.isDigit
  | _ => false

/-- The body `\d+(\.\d+)?` of the decimal-number regex. -/
def numBody : List Char → Bool
  | [] => false
  | c :: rest => c.isDigit && (rest.isEmpty || numBody rest || fracOk rest)

/-- The regex `/^[+-]?\d+(\.\d+)?$/` used for a decimal-hour timezone. -/
def isDecimalNum : List Char → Bool
  | '+' :: rest => numBody rest
  | '-' :: rest => numBody rest
  | l => numBody l

/-- The regex `/^[+-]\d{2}:\d{2}$/` used for a signed `±HH:MM` offset. -/
def isSignedHHMM : List Char → Bool
  | [sg, a, b, ':', c, d] =>
    (sg = '+' || sg = '-') && a.isDigit && b.isDigit && c.isDigit && d.isDigit
  | _ => false

/-- Numeric value of a string matching `/^[+-]?\d+(\.\d+)?$/` (what
`parseFloat` returns on it). -/
def parseDecimal (l : List Char) : ℚ :=
  let body := fun (r : List Char) =>
    let ip := r.takeWhile fun ch => ch ≠ '.'
    let rest := r.dropWhile fun ch => ch ≠ '.'
    (digitsToNat ip : ℚ) +
      (match rest with
       | [] => 0
       | _ :: fr => (digitsToNat fr : ℚ) / 10 ^ fr.length)
  match l with
  | '+' :: r => body r
  | '-' :: r => -(body r)
  | r => body r

/-- Offset of a matched `±HH:MM` string:
`sign * (h + m / 60)` with `h`/`m` read from the two-digit groups. -/
def hhmmOffset : List Char → ℚ
  | [sg, a, b, _, c, d] =>
    (if sg = '-' then (-1 : ℚ) else 1) *
      ((10 * (a.toNat - 48) + (b.toNat - 48) : ℕ) +
        ((10 * (c.toNat - 48) + (d.toNat - 48) : ℕ) : ℚ) / 60)
  | _ => 0

/-- The JS value handed to `parseDateTime` as `timezone`: a string, a
number, or anything else (`undefined`, `null`, objects, …) which the
`typeof` tests both reject. -/
inductive TZVal where
  | str (s : String)
  | num (q : ℚ)
  | other
deriving DecidableEq

/-- The `offset` computation of `parseDateTime`: literal `"Z"`, a signed
`±HH:MM` offset, a decimal-hour string, a plain number — anything else
keeps `offset = 0`. -/
def tzOffset : TZVal → ℚ
  | .str s =>
    if s = "Z" then 0
    else if isSignedHHMM s.data then hhmmOffset s.data
    else if isDecimalNum s.data then parseDecimal s.data
    else 0
  | .num q => q
  | .other => 0

/-- JS `Number(...)` on the split pieces of the date/time strings, restricted
to the decimal-literal forms that can appear there; `none` models `NaN`. -/
def jsNumberOpt (l : List Char) : Option ℚ :=
  if l.isEmpty then some 0
  else if isDecimalNum l then some (parseDecimal l) else none

/-- Array destructuring `const [x, y, z] = parts`: element `i` or
`undefined`; a `NaN` piece (`none` from `jsNumberOpt`) also yields `none`. -/
def getPart (l : List (Option ℚ)) (i : ℕ) : Option ℚ :=
  (l.get? i).getD none

/-- The `{year, month, day, hour}` record returned by `parseDateTime`. -/
structure CalendarMoment where
  year : ℚ
  month : ℚ
  day : ℚ
  hour : ℚ
deriving DecidableEq, Repr

/-- `parseDateTime(date, time, timezone)`:
splits `date` on `-` and `time` on `:`, converts the pieces with `Number`,
and returns `hour = hh + mm/60 − offset`.  `none` models the propagation of
`NaN`/`undefined` pieces from malformed inputs. -/
def parseDateTime (date time : String) (tz : TZVal) : Option CalendarMoment :=
  let dp := (splitOnChar '-' date.data).map jsNumberOpt
  let tp := (splitOnChar ':' time.data).map jsNumberOpt
  match getPart dp 0, getPart dp 1, getPart dp 2, getPart tp 0, getPart tp 1 with
  | some y, some mo, some d, some hh, some mm =>
    some { year := y, month := mo, day := d, hour := hh + mm / 60 - tzOffset tz }
  | _, _, _, _, _ => none

/-! ## Helper lemmas -/

theorem normalize360_shift (L : ℚ) (k : ℤ) :
    normalize360 (L + 360 * k) = normalize360 L := by
  unfold normalize360
  have h : (L + 360 * k) / 360 = L / 360 + k := by
    field_simp
    ring
  rw [h, Int.floor_add_int]
  push_cast
  ring

theorem normalize360_mem (L : ℚ) : 0 ≤ normalize360 L ∧ normalize360 L < 360 := by
  unfold normalize360
  have h1 : ((⌊L / 360⌋ : ℤ) : ℚ) * 360 ≤ L := by
    rw [← le_div_iff₀ (by norm_num : (0 : ℚ) < 360)]
    exact Int.floor_le _
  have h2 : L < ((⌊L / 360⌋ : ℤ) + 1 : ℚ) * 360 := by
    rw [← div_lt_iff (by norm_num : (0 : ℚ) < 360)]
    exact Int.lt_floor_add_one _
  constructor <;> linarith

theorem jsToFixed2_near (x : ℚ) : |jsToFixed2 x - x| ≤ 1 / 200 := by
  unfold jsToFixed2
  have h1 : ((⌊x * 100 + 1 / 2⌋ : ℤ) : ℚ) ≤ x * 100 + 1 / 2 := Int.floor_le _
  have h2 : x * 100 + 1 / 2 - 1 < ((⌊x * 100 + 1 / 2⌋ : ℤ) : ℚ) :=
    Int.sub_one_lt_floor _
  rw [abs_le]
  constructor <;> [linarith; linarith]

theorem jsMod_of_nonneg (L b : ℚ) (hb : 0 < b) (hL : 0 ≤ L) :
    jsMod L b = L - b * ⌊L / b⌋ ∧ 0 ≤ jsMod L b ∧ jsMod L b < b := by
  have hq : 0 ≤ L / b := div_nonneg hL hb.le
  have heq : jsMod L b = L - b * ⌊L / b⌋ := by
    unfold jsMod jsTrunc
    rw [if_pos hq]
  have h1 : ((⌊L / b⌋ : ℤ) : ℚ) * b ≤ L := by
    rw [← le_div_iff₀ hb]
    exact Int.floor_le _
  have h2 : L < ((⌊L / b⌋ : ℤ) + 1 : ℚ) * b := by
    rw [← div_lt_iff₀ hb]
    exact Int.lt_floor_add_one _
  refine ⟨heq, ?_, ?_⟩ <;> rw [heq] <;> linarith

/-! ## C3 and C4 -/

/-- C3: after normalisation into [0,360), the zodiac-sign lookup is
360°-periodic: for every longitude `L` and every integer `k`,
`getSign` of the normalised `L + 360·k` equals `getSign` of the
normalised `L`, and the normalised longitude lies in [0,360). -/
theorem signPeriodicity (L : ℚ) (k : ℤ) :
    getSign (normalize360 (L + 360 * k)) = getSign (normalize360 L) ∧
    0 ≤ normalize360 L ∧ normalize360 L < 360 :=
  ⟨by rw [normalize360_shift], normalize360_mem L⟩

/-- C4 counterexample: at longitude 29.999 the code's rounded degree-in-sign
is exactly 30, which is NOT in [0,30): `+(29.999 % 30).toFixed(2)` rounds up
to `30.00`. -/
theorem degreeInSignAt29999 :
    getDegreeInSign (29999 / 1000) = 30 ∧ ¬ getDegreeInSign (29999 / 1000) < 30 := by
  have hmod : jsMod (29999 / 1000) 30 = 29999 / 1000 := by
    unfold jsMod jsTrunc
    rw [if_pos (by norm_num)]
    rw [show ((29999 : ℚ) / 1000 / 30) = 29999 / 30000 by norm_num]
    rw [show ((⌊(29999 : ℚ) / 30000⌋ : ℤ) = 0) by rw [Int.floor_eq_iff] <;> norm_num]
    norm_num
  have : getDegreeInSign (29999 / 1000) = 30 := by
    unfold getDegreeInSign
    rw [hmod]
    unfold jsToFixed2
    rw [show ((29999 : ℚ) / 1000 * 100 + 1 / 2) = 30004 / 10 by norm_num]
    rw [show ((⌊(30004 : ℚ) / 10⌋ : ℤ) = 3000) by rw [Int.floor_eq_iff] <;> norm_num]
    norm_num
  exact ⟨this, by rw [this]; norm_num⟩

/-- C4 (amended): for every longitude in [0,360) the rounded degree-in-sign
lies in the CLOSED interval [0,30] — the upper endpoint 30 is attainable by
rounding (see the counterexample) — and `signIndex(L)·30 + degreeInSign(L)`
equals `L % 360` within the rounding tolerance 1/200 = 0.005. -/
theorem degreeInSignBounds (L : ℚ) (h0 : 0 ≤ L) (h1 : L < 360) :
    0 ≤ getDegreeInSign L ∧ getDegreeInSign L ≤ 30 ∧
    |((signIndex L : ℚ) * 30 + getDegreeInSign L) - jsMod L 360| ≤ 1 / 200 := by
  obtain ⟨heq, hm0, hm1⟩ := jsMod_of_nonneg L 30 (by norm_num) h0
  obtain ⟨heq', _, _⟩ := jsMod_of_nonneg L 360 (by norm_num) h0
  have hL360 : jsMod L 360 = L := by
    rw [heq', show ((⌊L / 360⌋ : ℤ) = 0) by
      rw [Int.floor_eq_iff]
      refine ⟨by positivity, ?_⟩
      rw [show ((0 : ℤ) : ℚ) + 1 = 1 by norm_num]
      rw [div_lt_one (by norm_num : (0 : ℚ) < 360)]
      linarith]
    norm_num
  have hnear := jsToFixed2_near (jsMod L 30)
  have hd : getDegreeInSign L = jsToFixed2 (jsMod L 30) := rfl
  have hfl0 : (0 : ℤ) = ⌊(0 : ℚ) * 100 + 1 / 2⌋ := by
    rw [eq_comm, Int.floor_eq_iff] <;> norm_num
  have hmono : ((⌊(0 : ℚ) * 100 + 1 / 2⌋ : ℤ) : ℚ) ≤ ⌊jsMod L 30 * 100 + 1 / 2⌋ := by
    exact_mod_cast Int.floor_le_floor (by linarith)
  have hup : (⌊jsMod L 30 * 100 + 1 / 2⌋ : ℤ) < 3001 := by
    rw [Int.floor_lt]
    push_cast
    linarith
  refine ⟨?_, ?_, ?_⟩
  · rw [hd]
    unfold jsToFixed2
    rw [← hfl0] at hmono
    push_cast at hmono
    linarith
  · rw [hd]
    unfold jsToFixed2
    have h3000 : (⌊jsMod L 30 * 100 + 1 / 2⌋ : ℤ) ≤ 3000 := by omega
    have h3000q : ((⌊jsMod L 30 * 100 + 1 / 2⌋ : ℤ) : ℚ) ≤ 3000 := by exact_mod_cast h3000
    linarith
  · rw [hL360, hd]
    have hshift : (signIndex L : ℚ) * 30 + jsToFixed2 (jsMod L 30) - L =
        jsToFixed2 (jsMod L 30) - jsMod L 30 := by
      rw [heq]
      unfold signIndex
      ring
    rw [hshift]
    exact hnear

/-- C4 witness at longitude 95°: the rounded degree-in-sign is within
bounds and recombines with the sign index to 95 within tolerance. -/
theorem degreeInSignBoundsWitness :
    0 ≤ getDegreeInSign 95 ∧ getDegreeInSign 95 ≤ 30 ∧
    |((signIndex 95 : ℚ) * 30 + getDegreeInSign 95) - jsMod 95 360| ≤ 1 / 200 :=
  degreeInSignBounds 95 (by norm_num) (by norm_num)

/-! ## C7: angular separation -/

/-- C7: for longitudes in [0,360) the separation computed by the aspect
detector equals `min(|a−b|, 360−|a−b|)`, is symmetric, and lies in [0,180]. -/
theorem sepProperties (a b : ℚ) (ha0 : 0 ≤ a) (ha1 : a < 360) (hb0 : 0 ≤ b) (hb1 : b < 360) :
    sep a b = min |a - b| (360 - |a - b|) ∧ sep a b = sep b a ∧
    0 ≤ sep a b ∧ sep a b ≤ 180 := by
  have habs : |a - b| < 360 := by
    rw [abs_sub_lt_iff]
    constructor <;> linarith
  have h0 : 0 ≤ |a - b| := abs_nonneg _
  have hsym : |a - b| = |b - a| := abs_sub_comm a b
  rcases le_or_lt |a - b| 180 with hle | hgt
  · have e1 : sep a b = |a - b| := by
      simp only [sep]
      rw [if_neg (not_lt.mpr hle)]
    have e2 : sep b a = |b - a| := by
      simp only [sep]
      rw [if_neg (not_lt.mpr (hsym ▸ hle))]
    refine ⟨?_, ?_, ?_, ?_⟩
    · rw [e1, min_eq_left (by linarith)]
    · rw [e1, e2, hsym]
    · rw [e1]; linarith
    · rw [e1]; linarith
  · have e1 : sep a b = 360 - |a - b| := by
      simp only [sep]
      rw [if_pos hgt]
    have e2 : sep b a = 360 - |b - a| := by
      simp only [sep]
      rw [if_pos (hsym ▸ hgt)]
    refine ⟨?_, ?_, ?_, ?_⟩
    · rw [e1, min_eq_right (by linarith)]
    · rw [e1, e2, hsym]
    · rw [e1]; linarith
    · rw [e1]; linarith

/-- C7 witness at the concrete longitudes 10° and 100°. -/
theorem sepPropertiesWitness :
    sep 10 100 = min |(10 : ℚ) - 100| (360 - |(10 : ℚ) - 100|) ∧
    sep 10 100 = sep 100 10 ∧ 0 ≤ sep 10 100 ∧ sep 10 100 ≤ 180 :=
  sepProperties 10 100 (by norm_num) (by norm_num) (by norm_num) (by norm_num)

/-! ## C5: the Square scenario -/

/-- C5: the aspect catalog is exactly Conjunction(0,8), Opposition(180,8),
Trine(120,8), Square(90,8), Sextile(60,6); for bodies at 10° and 100° the
separation is 90° and the detector emits exactly one match, a Square of
orb 0.00. -/
theorem squareScenario :
    aspectTypes = [{ type := "Conjunction", angle := 0, orb := 8 },
      { type := "Opposition", angle := 180, orb := 8 },
      { type := "Trine", angle := 120, orb := 8 },
      { type := "Square", angle := 90, orb := 8 },
      { type := "Sextile", angle := 60, orb := 6 }] ∧
    sep 10 100 = 90 ∧
    getAspects [("A", some 10), ("B", some 100)] =
      [{ type := "Square", between := ("A", "B"), orb := 0 }] := by
  have hsep : sep (10 : ℚ) 100 = 90 := by
    simp only [sep]
    rw [show |(10 : ℚ) - 100| = 90 by rw [abs_of_nonpos] <;> norm_num]
    norm_num
  have hfix : jsToFixed2 0 = 0 := by
    unfold jsToFixed2
    rw [show ((0 : ℚ) * 100 + 1 / 2) = 1 / 2 by norm_num]
    rw [show ((⌊(1 : ℚ) / 2⌋ : ℤ) = 0) by rw [Int.floor_eq_iff] <;> norm_num]
    norm_num
  refine ⟨rfl, hsep, ?_⟩
  have h0 : getAspects [("A", some (10 : ℚ)), ("B", some 100)] =
      matchList (sep 10 100) "A" "B" ++ [] := rfl
  rw [h0, List.append_nil, hsep]
  have h1 : ¬ |(90 : ℚ)| ≤ 8 := by
    intro hc
    have e := abs_le.mp hc
    linarith
  have h2 : ¬ |(90 : ℚ) - 180| ≤ 8 := by
    intro hc
    have e := abs_le.mp hc
    linarith
  have h3 : ¬ |(90 : ℚ) - 120| ≤ 8 := by
    intro hc
    have e := abs_le.mp hc
    linarith
  have h4 : (0 : ℚ) ≤ 8 := by norm_num
  have h5 : ¬ |(90 : ℚ) - 60| ≤ 6 := by
    intro hc
    have e := abs_le.mp hc
    linarith
  have h90 : ¬ (90 : ℚ) ≤ 8 := by norm_num
  unfold matchList aspectTypes
  simp only [List.filterMap_cons, List.filterMap_nil]
  simp [h1, h2, h3, h4, h5, h90, hfix]

/-! ## C9: disjoint tolerance windows -/

theorem matchList_length_eq_filter (d : ℚ) (k1 k2 : String) :
    (matchList d k1 k2).length =
      (aspectTypes.filter fun asp => decide (|d - asp.angle| ≤ asp.orb)).length := by
  unfold matchList
  have key : ∀ l : List AspectType,
      (l.filterMap fun asp =>
        if |d - asp.angle| ≤ asp.orb then
          some { type := asp.type, between := (k1, k2),
                 orb := jsToFixed2 |d - asp.angle| : Aspect }
        else none).length =
      (l.filter fun asp => decide (|d - asp.angle| ≤ asp.orb)).length := by
    intro l
    induction l with
    | nil => rfl
    | cons x xs ih => by_cases h : |d - x.angle| ≤ x.orb <;> simp [h, ih]
  exact key aspectTypes

theorem matchList_length (d : ℚ) (k1 k2 : String) : (matchList d k1 k2).length ≤ 1 := by
  unfold matchList aspectTypes
  simp only [List.filterMap_cons, List.filterMap_nil]
  by_cases h1 : |d| ≤ 8
  · have e1 := abs_le.mp h1
    have h2 : ¬ |d - 180| ≤ 8 := by
      intro hc
      have e := abs_le.mp hc
      linarith
    have h3 : ¬ |d - 120| ≤ 8 := by
      intro hc
      have e := abs_le.mp hc
      linarith
    have h4 : ¬ |d - 90| ≤ 8 := by
      intro hc
      have e := abs_le.mp hc
      linarith
    have h5 : ¬ |d - 60| ≤ 6 := by
      intro hc
      have e := abs_le.mp hc
      linarith
    simp [h1, h2, h3, h4, h5]
  · have h1n : ¬ |d - 0| ≤ 8 := by rwa [sub_zero]
    by_cases h2 : |d - 180| ≤ 8
    · have e2 := abs_le.mp h2
      have h3 : ¬ |d - 120| ≤ 8 := by
        intro hc
        have e := abs_le.mp hc
        linarith
      have h4 : ¬ |d - 90| ≤ 8 := by
        intro hc
        have e := abs_le.mp hc
        linarith
      have h5 : ¬ |d - 60| ≤ 6 := by
        intro hc
        have e := abs_le.mp hc
        linarith
      simp [h1, h2, h3, h4, h5]
    · by_cases h3 : |d - 120| ≤ 8
      · have e3 := abs_le.mp h3
        have h4 : ¬ |d - 90| ≤ 8 := by
          intro hc
          have e := abs_le.mp hc
          linarith
        have h5 : ¬ |d - 60| ≤ 6 := by
          intro hc
          have e := abs_le.mp hc
          linarith
        simp [h1, h2, h3, h4, h5]
      · by_cases h4 : |d - 90| ≤ 8
        · have e4 := abs_le.mp h4
          have h5 : ¬ |d - 60| ≤ 6 := by
            intro hc
            have e := abs_le.mp hc
            linarith
          simp [h1, h2, h3, h4, h5]
        · by_cases h5 : |d - 60| ≤ 6 <;> simp [h1, h2, h3, h4, h5]

/-- C9: `getAspects` is the union over unordered body pairs of per-pair
matches, and each pair contributes at most one match: the five tolerance
windows of the fixed catalog are pairwise disjoint, so no separation value
matches two catalog entries. -/
theorem aspectWindowsDisjoint (ps : List (String × Option ℚ)) :
    getAspects ps = ((pairsOf ps).flatMap fun pr => pairAspects pr.1 pr.2) ∧
    (∀ x y : String × Option ℚ, (pairAspects x y).length ≤ 1) ∧
    (∀ d : ℚ,
      (aspectTypes.filter fun asp => decide (|d - asp.angle| ≤ asp.orb)).length ≤ 1) := by
  refine ⟨rfl, ?_, ?_⟩
  · intro x y
    unfold pairAspects
    rcases x.2 with _ | a <;> rcases y.2 with _ | b <;> simp
    exact matchList_length _ _ _
  · intro d
    have h := matchList_length d "x" "y"
    rw [matchList_length_eq_filter d "x" "y"] at h
    exact h

/-! ## C2: totality of the house scan -/

theorem arcCond_refl (f L : ℚ) : arcCond f f L := by
  unfold arcCond
  rw [if_neg (lt_irrefl f)]
  exact le_or_lt f L

theorem arcCond_split (a m b L : ℚ) (h : arcCond a b L) :
    arcCond a m L ∨ arcCond m b L := by
  unfold arcCond at h ⊢
  by_cases hab : a < b
  · rw [if_pos hab] at h
    obtain ⟨h1, h2⟩ := h
    by_cases ham : a < m
    · rcases lt_or_le L m with hLm | hmL
      · left
        rw [if_pos ham]
        exact ⟨h1, hLm⟩
      · right
        by_cases hmb : m < b
        · rw [if_pos hmb]
          exact ⟨hmL, h2⟩
        · rw [if_neg hmb]
          exact Or.inl hmL
    · left
      rw [if_neg ham]
      exact Or.inl h1
  · rw [if_neg hab] at h
    push_neg at hab
    rcases h with h1 | h1
    · by_cases ham : a < m
      · rcases lt_or_le L m with hLm | hmL
        · left
          rw [if_pos ham]
          exact ⟨h1, hLm⟩
        · right
          by_cases hmb : m < b
          · exfalso
            linarith
          · rw [if_neg hmb]
            exact Or.inl hmL
      · left
        rw [if_neg ham]
        exact Or.inl h1
    · by_cases hmb : m < b
      · rcases le_or_lt m L with hmL | hLm
        · right
          rw [if_pos hmb]
          exact ⟨hmL, h1⟩
        · left
          by_cases ham : a < m
          · exfalso
            linarith
          · rw [if_neg ham]
            exact Or.inr hLm
      · right
        rw [if_neg hmb]
        exact Or.inr h1

theorem chain_cover (l : List ℚ) (f cl L : ℚ) (h : arcCond f cl L) :
    ∃ p ∈ (f :: l).zip (l ++ [cl]), arcCond p.1 p.2 L := by
  induction l generalizing f with
  | nil => exact ⟨(f, cl), by simp, h⟩
  | cons x xs ih =>
    rcases arcCond_split f x cl L h with h1 | h2
    · refine ⟨(f, x), ?_, h1⟩
      simp only [List.cons_append, List.zip_cons_cons]
      exact List.mem_cons_self _ _
    · obtain ⟨p, hp, hc⟩ := ih x h2
      refine ⟨p, ?_, hc⟩
      simp only [List.cons_append, List.zip_cons_cons]
      exact List.mem_cons_of_mem _ hp

/-- C2: with a supplied 12-cusp sequence the scan over houses 1..12 (first
containing wrap-aware interval wins) assigns every longitude in [0,360) to
exactly one house in 1..12; with no cusps supplied, every body's house is
`none` and no error is raised. -/
theorem houseAssignmentTotal (cusps : List ℚ) (L : ℚ) (hlen : cusps.length = 12)
    (h0 : 0 ≤ L) (h1 : L < 360) :
    (∃ h, assignHouse cusps L = some h ∧ 1 ≤ h ∧ h ≤ 12) ∧
    (∀ (eph : ℚ → String → ℚ) (jd : ℚ),
      (getAllPositions eph jd none).map (fun p => p.2.house) = PLANETS.map fun _ => none) := by
  constructor
  · rcases cusps with _ | ⟨a0, _ | ⟨a1, _ | ⟨a2, _ | ⟨a3, _ | ⟨a4, _ | ⟨a5, _ | ⟨a6, _ |
      ⟨a7, _ | ⟨a8, _ | ⟨a9, _ | ⟨a10, _ | ⟨a11, _ | ⟨a12, rest⟩⟩⟩⟩⟩⟩⟩⟩⟩⟩⟩⟩⟩ <;>
      simp only [List.length_nil, List.length_cons] at hlen <;> try omega
    obtain ⟨p, hp, hc⟩ :=
      chain_cover [a1, a2, a3, a4, a5, a6, a7, a8, a9, a10, a11] a0 a0 L (arcCond_refl a0 L)
    simp only [List.cons_append, List.nil_append, List.zip_cons_cons, List.zip_nil_left,
      List.mem_cons, List.not_mem_nil, or_false] at hp
    have hex : ∃ x ∈ List.range' 1 12,
        houseCond [a0, a1, a2, a3, a4, a5, a6, a7, a8, a9, a10, a11] L x = true := by
      rcases hp with rfl | rfl | rfl | rfl | rfl | rfl | rfl | rfl | rfl | rfl | rfl | rfl
      · exact ⟨1, by decide, by
          show (if arcCond a0 a1 L then true else false) = true
          rw [if_pos hc]⟩
      · exact ⟨2, by decide, by
          show (if arcCond a1 a2 L then true else false) = true
          rw [if_pos hc]⟩
      · exact ⟨3, by decide, by
          show (if arcCond a2 a3 L then true else false) = true
          rw [if_pos hc]⟩
      · exact ⟨4, by decide, by
          show (if arcCond a3 a4 L then true else false) = true
          rw [if_pos hc]⟩
      · exact ⟨5, by decide, by
          show (if arcCond a4 a5 L then true else false) = true
          rw [if_pos hc]⟩
      · exact ⟨6, by decide, by
          show (if arcCond a5 a6 L then true else false) = true
          rw [if_pos hc]⟩
      · exact ⟨7, by decide, by
          show (if arcCond a6 a7 L then true else false) = true
          rw [if_pos hc]⟩
      · exact ⟨8, by decide, by
          show (if arcCond a7 a8 L then true else false) = true
          rw [if_pos hc]⟩
      · exact ⟨9, by decide, by
          show (if arcCond a8 a9 L then true else false) = true
          rw [if_pos hc]⟩
      · exact ⟨10, by decide, by
          show (if arcCond a9 a10 L then true else false) = true
          rw [if_pos hc]⟩
      · exact ⟨11, by decide, by
          show (if arcCond a10 a11 L then true else false) = true
          rw [if_pos hc]⟩
      · exact ⟨12, by decide, by
          show (if arcCond a11 a0 L then true else false) = true
          rw [if_pos hc]⟩
    obtain ⟨x, hx, hxc⟩ := hex
    have hs : (List.find?
        (houseCond [a0, a1, a2, a3, a4, a5, a6, a7, a8, a9, a10, a11] L)
        (List.range' 1 12)).isSome := List.find?_isSome.mpr ⟨x, hx, hxc⟩
    obtain ⟨h, hh⟩ := Option.isSome_iff_exists.mp hs
    have hmem := List.mem_of_find?_eq_some hh
    rw [List.mem_range'] at hmem
    obtain ⟨i, hi, rfl⟩ := hmem
    exact ⟨1 + 1 * i, hh, by omega, by omega⟩
  · intro eph jd
    rfl

/-- C2 witness: equal 30°-wide cusps starting at 0°, longitude 15°. -/
theorem houseAssignmentTotalWitness :
    (∃ h, assignHouse [0, 30, 60, 90, 120, 150, 180, 210, 240, 270, 300, 330]
        (15 : ℚ) = some h ∧ 1 ≤ h ∧ h ≤ 12) ∧
    (∀ (eph : ℚ → String → ℚ) (jd : ℚ),
      (getAllPositions eph jd none).map (fun p => p.2.house) = PLANETS.map fun _ => none) :=
  houseAssignmentTotal [0, 30, 60, 90, 120, 150, 180, 210, 240, 270, 300, 330] 15
    rfl (by norm_num) (by norm_num)

/-! ## C1: which cusps place transit bodies -/

/-- C1 counterexample: in the flat request shape the transit pass assigns NO
houses.  With a constant ephemeris putting every body at 15° and the natal
cusps 0°,30°,…,330°, the natal-cusp scan would give house 1, yet every
transit body produced by `getTransits` has `house = null` — so the claim
that the flat shape places transit bodies into the natal house framework is
false. -/
theorem flatTransitNoNatalHouses :
    ((getTransits (fun _ _ => (15 : ℚ)) 0 1).map fun p => p.2.house) =
      List.replicate 12 (none : Option ℕ) ∧
    assignHouse [0, 30, 60, 90, 120, 150, 180, 210, 240, 270, 300, 330] (15 : ℚ) = some 1 ∧
    List.replicate 12 (none : Option ℕ) ≠ List.replicate 12 (some 1) := by
  refine ⟨rfl, ?_, by decide⟩
  have hc : arcCond (0 : ℚ) 30 15 := by
    unfold arcCond
    rw [if_pos (by norm_num : (0 : ℚ) < 30)]
    norm_num
  have hc1 : houseCond [0, 30, 60, 90, 120, 150, 180, 210, 240, 270, 300, 330] (15 : ℚ) 1
      = true := by
    show (if arcCond (0 : ℚ) 30 15 then true else false) = true
    rw [if_pos hc]
  show (List.range' 1 12).find?
    (houseCond [0, 30, 60, 90, 120, 150, 180, 210, 240, 270, 300, 330] (15 : ℚ)) = some 1
  rw [show List.range' 1 12 = 1 :: List.range' 2 11 by decide]
  exact List.find?_cons_of_pos _ hc1

/-- C1 (amended): only the structured request shape places transit bodies
with the natal chart's cusps — each transit body's house there is exactly
the natal-cusp scan applied to its transit longitude, cusps not recomputed.
In the flat shape `getTransits` calls `getAllPositions` without house data,
so every transit body's house is absent. -/
theorem transitHousePlacement (eph : ℚ → String → ℚ) (jdN jdT : ℚ) (cs : List ℚ) :
    ((structuredTransitPlanets eph jdT (some cs)).map fun p => p.2.house) =
      PLANETS.map (fun nm => assignHouse cs (eph jdT nm)) ∧
    ((getTransits eph jdN jdT).map fun p => p.2.house) = PLANETS.map fun _ => none := by
  constructor
  · rw [structuredTransitPlanets, List.map_map]
    rfl
  · rfl

/-! ## C8 and C10: distributions -/

theorem incr_keys (k : String) (d : List (String × ℕ)) :
    (incr k d).map Prod.fst = d.map Prod.fst := by
  induction d with
  | nil => rfl
  | cons p t ih =>
    simp only [incr, List.map_cons] at ih ⊢
    by_cases h : p.1 = k <;> simp [h, ih]

theorem elemStep_keys (d : List (String × ℕ)) (p : String × Option String) :
    (elemStep d p).map Prod.fst = d.map Prod.fst := by
  unfold elemStep
  cases signElem p.2 <;> simp [incr_keys]

theorem modalStep_keys (d : List (String × ℕ)) (p : String × Option String) :
    (modalStep d p).map Prod.fst = d.map Prod.fst := by
  unfold modalStep
  cases signMode p.2 <;> simp [incr_keys]

theorem foldl_elemStep_keys (ps : List (String × Option String)) :
    ∀ d : List (String × ℕ), (ps.foldl elemStep d).map Prod.fst = d.map Prod.fst := by
  induction ps with
  | nil => intro d; rfl
  | cons p t ih =>
    intro d
    rw [List.foldl_cons, ih, elemStep_keys]

theorem foldl_modalStep_keys (ps : List (String × Option String)) :
    ∀ d : List (String × ℕ), (ps.foldl modalStep d).map Prod.fst = d.map Prod.fst := by
  induction ps with
  | nil => intro d; rfl
  | cons p t ih =>
    intro d
    rw [List.foldl_cons, ih, modalStep_keys]

theorem foldl_elemStep_filter (ps : List (String × Option String)) :
    ∀ d : List (String × ℕ),
      ps.foldl elemStep d =
        (ps.filter fun p => (signElem p.2).isSome).foldl elemStep d := by
  induction ps with
  | nil => intro d; rfl
  | cons p t ih =>
    intro d
    rcases h : signElem p.2 with _ | el
    · have hstep : elemStep d p = d := by
        unfold elemStep
        rw [h]
      have hfilter : List.filter (fun q => (signElem q.2).isSome) (p :: t) =
          List.filter (fun q => (signElem q.2).isSome) t := by
        rw [List.filter_cons]
        simp [h]
      rw [List.foldl_cons, hstep, hfilter]
      exact ih d
    · have hstep : elemStep d p = incr el d := by
        unfold elemStep
        rw [h]
      have hfilter : List.filter (fun q => (signElem q.2).isSome) (p :: t) =
          p :: List.filter (fun q => (signElem q.2).isSome) t := by
        rw [List.filter_cons]
        simp [h]
      rw [List.foldl_cons, hfilter, List.foldl_cons, hstep]
      exact ih (incr el d)

theorem foldl_modalStep_filter (ps : List (String × Option String)) :
    ∀ d : List (String × ℕ),
      ps.foldl modalStep d =
        (ps.filter fun p => (signMode p.2).isSome).foldl modalStep d := by
  induction ps with
  | nil => intro d; rfl
  | cons p t ih =>
    intro d
    rcases h : signMode p.2 with _ | md
    · have hstep : modalStep d p = d := by
        unfold modalStep
        rw [h]
      have hfilter : List.filter (fun q => (signMode q.2).isSome) (p :: t) =
          List.filter (fun q => (signMode q.2).isSome) t := by
        rw [List.filter_cons]
        simp [h]
      rw [List.foldl_cons, hstep, hfilter]
      exact ih d
    · have hstep : modalStep d p = incr md d := by
        unfold modalStep
        rw [h]
      have hfilter : List.filter (fun q => (signMode q.2).isSome) (p :: t) =
          p :: List.filter (fun q => (signMode q.2).isSome) t := by
        rw [List.filter_cons]
        simp [h]
      rw [List.foldl_cons, hfilter, List.foldl_cons, hstep]
      exact ih (incr md d)

/-- C8: for every body→position mapping the elemental distribution has
exactly the four categories (in the literal's order Fire, Water, Earth,
Air) and the modal distribution exactly the three (Cardinal, Fixed,
Mutable), all present even at count zero; entries whose sign is missing,
falsy, or not in the static tables are skipped without error (dropping them
leaves both distributions unchanged). -/
theorem distributionCategories (ps : List (String × Option String)) :
    (getElementalDistribution ps).map Prod.fst = ["Fire", "Water", "Earth", "Air"] ∧
    (getModalDistribution ps).map Prod.fst = ["Cardinal", "Fixed", "Mutable"] ∧
    getElementalDistribution ps =
      getElementalDistribution (ps.filter fun p => (signElem p.2).isSome) ∧
    getModalDistribution ps =
      getModalDistribution (ps.filter fun p => (signMode p.2).isSome) :=
  ⟨foldl_elemStep_keys ps initElemDist, foldl_modalStep_keys ps initModalDist,
   foldl_elemStep_filter ps initElemDist, foldl_modalStep_filter ps initModalDist⟩

theorem lookup_mem_vals (l : List (String × String)) (s v : String)
    (h : l.lookup s = some v) : v ∈ l.map Prod.snd := by
  induction l with
  | nil => simp [List.lookup] at h
  | cons p t ih =>
    rcases p with ⟨k, b⟩
    simp only [List.lookup] at h
    cases hb : s == k <;> rw [hb] at h
    · simp only [List.map_cons, List.mem_cons]
      exact Or.inr (ih h)
    · simp only [Option.some_inj] at h
      simp [← h]

theorem signElem_val (s? : Option String) (el : String) (h : signElem s? = some el) :
    el ∈ ["Fire", "Water", "Earth", "Air"] := by
  rcases s? with _ | s
  · simp [signElem] at h
  · simp only [signElem] at h
    by_cases he : s = ""
    · rw [if_pos he] at h
      simp at h
    · rw [if_neg he] at h
      have hm := lookup_mem_vals ELEMENTS s el h
      simp only [ELEMENTS, List.map_cons, List.map_nil] at hm
      fin_cases hm <;> decide

theorem signMode_val (s? : Option String) (md : String) (h : signMode s? = some md) :
    md ∈ ["Cardinal", "Fixed", "Mutable"] := by
  rcases s? with _ | s
  · simp [signMode] at h
  · simp only [signMode] at h
    by_cases he : s = ""
    · rw [if_pos he] at h
      simp at h
    · rw [if_neg he] at h
      have hm := lookup_mem_vals MODES s md h
      simp only [List.map_cons, MODES, List.map_nil] at hm
      fin_cases hm <;> decide

theorem incr_not_mem (k : String) (d : List (String × ℕ))
    (h : k ∉ d.map Prod.fst) : incr k d = d := by
  induction d with
  | nil => rfl
  | cons p t ih =>
    simp only [List.map_cons, List.mem_cons, not_or] at h
    simp only [incr, List.map_cons] at ih ⊢
    rw [if_neg (fun he => h.1 he.symm), ih h.2]

theorem sumValues_incr (d : List (String × ℕ)) (k : String)
    (hnd : (d.map Prod.fst).Nodup) (hmem : k ∈ d.map Prod.fst) :
    sumValues (incr k d) = sumValues d + 1 := by
  induction d with
  | nil => simp at hmem
  | cons p t ih =>
    simp only [List.map_cons, List.nodup_cons] at hnd
    simp only [List.map_cons, List.mem_cons] at hmem
    by_cases h : p.1 = k
    · have ht : incr k t = t := incr_not_mem k t (h ▸ hnd.1)
      simp only [incr, List.map_cons] at ht ⊢
      rw [if_pos h, ht]
      simp only [sumValues, List.map_cons, List.sum_cons]
      omega
    · rcases hmem with hk | hk
      · exact absurd hk.symm h
      · have := ih hnd.2 hk
        simp only [incr, List.map_cons, sumValues, List.sum_cons] at this ⊢
        rw [if_neg h]
        omega

theorem sumValues_foldl_elem (ps : List (String × Option String)) :
    ∀ d : List (String × ℕ), d.map Prod.fst = ["Fire", "Water", "Earth", "Air"] →
      sumValues (ps.foldl elemStep d) =
        sumValues d + (ps.countP fun p => (signElem p.2).isSome) := by
  induction ps with
  | nil => intro d _; simp
  | cons p t ih =>
    intro d hkeys
    rcases h : signElem p.2 with _ | el
    · rw [List.foldl_cons]
      have hstep : elemStep d p = d := by
        unfold elemStep
        rw [h]
      rw [hstep, ih d hkeys, List.countP_cons]
      simp [h]
    · rw [List.foldl_cons]
      have hstep : elemStep d p = incr el d := by
        unfold elemStep
        rw [h]
      have hkeys' : (incr el d).map Prod.fst = ["Fire", "Water", "Earth", "Air"] := by
        rw [incr_keys, hkeys]
      have hsum : sumValues (incr el d) = sumValues d + 1 :=
        sumValues_incr d el (by rw [hkeys]; decide)
          (by rw [hkeys]; exact signElem_val p.2 el h)
      rw [hstep, ih _ hkeys', hsum, List.countP_cons]
      simp [h]
      omega

theorem sumValues_foldl_modal (ps : List (String × Option String)) :
    ∀ d : List (String × ℕ), d.map Prod.fst = ["Cardinal", "Fixed", "Mutable"] →
      sumValues (ps.foldl modalStep d) =
        sumValues d + (ps.countP fun p => (signMode p.2).isSome) := by
  induction ps with
  | nil => intro d _; simp
  | cons p t ih =>
    intro d hkeys
    rcases h : signMode p.2 with _ | md
    · rw [List.foldl_cons]
      have hstep : modalStep d p = d := by
        unfold modalStep
        rw [h]
      rw [hstep, ih d hkeys, List.countP_cons]
      simp [h]
    · rw [List.foldl_cons]
      have hstep : modalStep d p = incr md d := by
        unfold modalStep
        rw [h]
      have hkeys' : (incr md d).map Prod.fst = ["Cardinal", "Fixed", "Mutable"] := by
        rw [incr_keys, hkeys]
      have hsum : sumValues (incr md d) = sumValues d + 1 :=
        sumValues_incr d md (by rw [hkeys]; decide)
          (by rw [hkeys]; exact signMode_val p.2 md h)
      rw [hstep, ih _ hkeys', hsum, List.countP_cons]
      simp [h]
      omega

theorem lookup_isSome_eq (s : String) :
    (ELEMENTS.lookup s).isSome = (MODES.lookup s).isSome := by
  by_cases h1 : s = "Aries"
  · simp [ELEMENTS, MODES, List.lookup, h1]
  by_cases h2 : s = "Taurus"
  · simp [ELEMENTS, MODES, List.lookup, h2]
  by_cases h3 : s = "Gemini"
  · simp [ELEMENTS, MODES, List.lookup, h3]
  by_cases h4 : s = "Cancer"
  · simp [ELEMENTS, MODES, List.lookup, h4]
  by_cases h5 : s = "Leo"
  · simp [ELEMENTS, MODES, List.lookup, h5]
  by_cases h6 : s = "Virgo"
  · simp [ELEMENTS, MODES, List.lookup, h6]
  by_cases h7 : s = "Libra"
  · simp [ELEMENTS, MODES, List.lookup, h7]
  by_cases h8 : s = "Scorpio"
  · simp [ELEMENTS, MODES, List.lookup, h8]
  by_cases h9 : s = "Sagittarius"
  · simp [ELEMENTS, MODES, List.lookup, h9]
  by_cases h10 : s = "Capricorn"
  · simp [ELEMENTS, MODES, List.lookup, h10]
  by_cases h11 : s = "Aquarius"
  · simp [ELEMENTS, MODES, List.lookup, h11]
  by_cases h12 : s = "Pisces"
  · simp [ELEMENTS, MODES, List.lookup, h12]
  have e1 : (s == "Aries") = false := by simp [h1]
  have e2 : (s == "Taurus") = false := by simp [h2]
  have e3 : (s == "Gemini") = false := by simp [h3]
  have e4 : (s == "Cancer") = false := by simp [h4]
  have e5 : (s == "Leo") = false := by simp [h5]
  have e6 : (s == "Virgo") = false := by simp [h6]
  have e7 : (s == "Libra") = false := by simp [h7]
  have e8 : (s == "Scorpio") = false := by simp [h8]
  have e9 : (s == "Sagittarius") = false := by simp [h9]
  have e10 : (s == "Capricorn") = false := by simp [h10]
  have e11 : (s == "Aquarius") = false := by simp [h11]
  have e12 : (s == "Pisces") = false := by simp [h12]
  simp only [ELEMENTS, MODES, List.lookup, e1, e2, e3, e4, e5, e6, e7, e8, e9, e10, e11, e12]

theorem signElem_isSome_eq (s? : Option String) :
    (signElem s?).isSome = (signMode s?).isSome := by
  rcases s? with _ | s
  · rfl
  · simp only [signElem, signMode]
    by_cases he : s = ""
    · rw [if_pos he, if_pos he]
    · rw [if_neg he, if_neg he]
      exact lookup_isSome_eq s

/-- C10: the two static tables are defined on exactly the same twelve signs
(a sign has an element entry exactly when it has a mode entry), hence for
every body→position mapping the elemental counts and the modal counts have
the same total. -/
theorem distributionSumsAgree :
    (∀ s : String, (ELEMENTS.lookup s).isSome ↔ (MODES.lookup s).isSome) ∧
    ∀ ps : List (String × Option String),
      sumValues (getElementalDistribution ps) = sumValues (getModalDistribution ps) := by
  constructor
  · intro s
    rw [lookup_isSome_eq s]
  · intro ps
    unfold getElementalDistribution getModalDistribution
    rw [sumValues_foldl_elem ps initElemDist rfl, sumValues_foldl_modal ps initModalDist rfl]
    have hcount : (ps.countP fun p => (signElem p.2).isSome) =
        (ps.countP fun p => (signMode p.2).isSome) :=
      List.countP_congr fun p _ => by rw [signElem_isSome_eq]
    rw [hcount]
    rfl

/-! ## C6: parseDateTime and the timezone offset -/

theorem jsNumberOpt_1990 : jsNumberOpt ['1', '9', '9', '0'] = some 1990 := by
  unfold jsNumberOpt
  rw [if_neg (by decide), if_pos (by decide)]
  have hpd : parseDecimal ['1', '9', '9', '0'] =
      ((digitsToNat ['1', '9', '9', '0'] : ℕ) : ℚ) + 0 := rfl
  rw [hpd, show digitsToNat ['1', '9', '9', '0'] = 1990 from by decide]
  norm_num

theorem jsNumberOpt_01 : jsNumberOpt ['0', '1'] = some 1 := by
  unfold jsNumberOpt
  rw [if_neg (by decide), if_pos (by decide)]
  have hpd : parseDecimal ['0', '1'] = ((digitsToNat ['0', '1'] : ℕ) : ℚ) + 0 := rfl
  rw [hpd, show digitsToNat ['0', '1'] = 1 from by decide]
  norm_num

theorem jsNumberOpt_15 : jsNumberOpt ['1', '5'] = some 15 := by
  unfold jsNumberOpt
  rw [if_neg (by decide), if_pos (by decide)]
  have hpd : parseDecimal ['1', '5'] = ((digitsToNat ['1', '5'] : ℕ) : ℚ) + 0 := rfl
  rw [hpd, show digitsToNat ['1', '5'] = 15 from by decide]
  norm_num

theorem jsNumberOpt_10 : jsNumberOpt ['1', '0'] = some 10 := by
  unfold jsNumberOpt
  rw [if_neg (by decide), if_pos (by decide)]
  have hpd : parseDecimal ['1', '0'] = ((digitsToNat ['1', '0'] : ℕ) : ℚ) + 0 := rfl
  rw [hpd, show digitsToNat ['1', '0'] = 10 from by decide]
  norm_num

theorem jsNumberOpt_00 : jsNumberOpt ['0', '0'] = some 0 := by
  unfold jsNumberOpt
  rw [if_neg (by decide), if_pos (by decide)]
  have hpd : parseDecimal ['0', '0'] = ((digitsToNat ['0', '0'] : ℕ) : ℚ) + 0 := rfl
  rw [hpd, show digitsToNat ['0', '0'] = 0 from by decide]
  norm_num

theorem parseDateTime_concrete_noTZ :
    parseDateTime "1990-01-15" "10:00" TZVal.other =
      some { year := 1990, month := 1, day := 15, hour := 10 } := by
  unfold parseDateTime
  rw [show splitOnChar '-' ("1990-01-15".data) =
      [['1', '9', '9', '0'], ['0', '1'], ['1', '5']] from by decide]
  rw [show splitOnChar ':' ("10:00".data) = [['1', '0'], ['0', '0']] from by decide]
  simp only [List.map_cons, List.map_nil, jsNumberOpt_1990, jsNumberOpt_01,
    jsNumberOpt_15, jsNumberOpt_10, jsNumberOpt_00]
  simp only [getPart, List.get?, Option.getD_some]
  simp only [Option.some_inj, CalendarMoment.mk.injEq]
  norm_num [tzOffset]

theorem tzOffset_plus0530 : tzOffset (TZVal.str "+05:30") = 11 / 2 := by
  simp only [tzOffset]
  rw [if_neg (by decide : ¬("+05:30" = "Z"))]
  rw [if_pos (by decide : isSignedHHMM ("+05:30".data) = true)]
  simp only [hhmmOffset]
  rw [if_neg (by decide : ¬('+' = '-'))]
  rw [show (10 * ('0'.toNat - 48) + ('5'.toNat - 48) : ℕ) = 5 from by decide]
  rw [show (10 * ('3'.toNat - 48) + ('0'.toNat - 48) : ℕ) = 30 from by decide]
  norm_num

theorem parseDateTime_offset_shift (d t : String) (tz : TZVal) (m : CalendarMoment)
    (h : parseDateTime d t TZVal.other = some m) :
    parseDateTime d t tz = some { m with hour := m.hour - tzOffset tz } := by
  revert h
  simp only [parseDateTime]
  rcases getPart ((splitOnChar '-' d.data).map jsNumberOpt) 0 with _ | y
  · intro h
    exact Option.noConfusion h
  rcases getPart ((splitOnChar '-' d.data).map jsNumberOpt) 1 with _ | mo
  · intro h
    exact Option.noConfusion h
  rcases getPart ((splitOnChar '-' d.data).map jsNumberOpt) 2 with _ | dd
  · intro h
    exact Option.noConfusion h
  rcases getPart ((splitOnChar ':' t.data).map jsNumberOpt) 0 with _ | hh
  · intro h
    exact Option.noConfusion h
  rcases getPart ((splitOnChar ':' t.data).map jsNumberOpt) 1 with _ | mm
  · intro h
    exact Option.noConfusion h
  intro h
  obtain rfl := Option.some_inj.mp h
  simp only [Option.some_inj, CalendarMoment.mk.injEq, true_and]
  show hh + mm / 60 - tzOffset tz = hh + mm / 60 - tzOffset TZVal.other - tzOffset tz
  rw [show tzOffset TZVal.other = 0 from rfl]
  ring

/-- C6: `parseDateTime` returns `hour` = local decimal hour minus the
timezone offset in hours; local 10:00 with timezone "+05:30" yields UT hour
4.50; and any timezone string matching none of "Z", signed "±HH:MM", or a
decimal-hour number is silently treated as offset 0 rather than an error. -/
theorem parseDateTimeOffsetRule :
    parseDateTime "1990-01-15" "10:00" (TZVal.str "+05:30") =
      some { year := 1990, month := 1, day := 15, hour := 9 / 2 } ∧
    (∀ s : String, s ≠ "Z" → isSignedHHMM s.data = false → isDecimalNum s.data = false →
      tzOffset (TZVal.str s) = 0) ∧
    (∀ (d t : String) (tz : TZVal) (m : CalendarMoment),
      parseDateTime d t TZVal.other = some m →
      parseDateTime d t tz = some { m with hour := m.hour - tzOffset tz }) := by
  refine ⟨?_, ?_, parseDateTime_offset_shift⟩
  · rw [parseDateTime_offset_shift "1990-01-15" "10:00" (TZVal.str "+05:30") _
      parseDateTime_concrete_noTZ]
    simp only [Option.some_inj, CalendarMoment.mk.injEq, true_and]
    rw [tzOffset_plus0530]
    norm_num
  · intro s hZ hH hD
    simp only [tzOffset]
    rw [if_neg hZ, if_neg (by simp [hH]), if_neg (by simp [hD])]

/-- C6 witness: the unrecognized timezone "EST" gives offset 0, and a
numeric timezone of 3 hours shifts the 10:00 local hour to UT hour 7. -/
theorem parseDateTimeOffsetRuleWitness :
    tzOffset (TZVal.str "EST") = 0 ∧
    parseDateTime "1990-01-15" "10:00" (TZVal.num 3) =
      some { year := 1990, month := 1, day := 15, hour := (7 : ℚ) } := by
  constructor
  · exact parseDateTimeOffsetRule.2.1 "EST" (by decide) (by decide) (by decide)
  · rw [parseDateTimeOffsetRule.2.2 "1990-01-15" "10:00" (TZVal.num 3)
      { year := 1990, month := 1, day := 15, hour := 10 } parseDateTime_concrete_noTZ]
    simp only [Option.some_inj, CalendarMoment.mk.injEq, true_and]
    show (10 : ℚ) - tzOffset (TZVal.num 3) = 7
    rw [show tzOffset (TZVal.num 3) = 3 from rfl]
    norm_num

end NatalChart
